import Mathlib

/-!
Verification of the ingestion/normalization/query core of the BID roster
application (src/app.py): header normalization onto the canonical schema,
multi-source dataset assembly, the inner-CSV selection, and the three
query operations (get_times, search_jogadores, get_detalhes_jogador).
Python/pandas string and table primitives are shallowly embedded; file IO
and the Streamlit cache decorators are outside the embedding.
-/

namespace BidApp

/-- Characters removed by Python str.strip (the ASCII whitespace set). -/
def isPySpace (c : Char) : Bool :=
  c == ' ' || c == '\t' || c == '\n' || c == '\r' || c == '\x0b' || c == '\x0c'

/-- Python str.strip. -/
def pyStrip (s : String) : String :=
  ⟨((s.toList.dropWhile isPySpace).reverse.dropWhile isPySpace).reverse⟩

/-- Python str.lower, on the ASCII fragment (Char.toLower lowers A-Z). -/
def pyLower (s : String) : String := ⟨s.toList.map Char.toLower⟩

/-- Contiguous-sublist occurrence on character lists. -/
def subList (pat : List Char) : List Char → Bool
  | [] => pat.isEmpty
  | c :: rest => pat.isPrefixOf (c :: rest) || subList pat rest

/-- Python substring membership: pat in s. -/
def pyIn (pat s : String) : Bool := subList pat.toList s.toList

/-- Case-insensitive substring test: the semantics of a metacharacter-free
pattern under pandas Series.str.contains with case=False. -/
def pyContainsCI (pat s : String) : Bool := pyIn (pyLower pat) (pyLower s)

/-- The Python re metacharacters.  A pattern containing none of them is
matched by re.search exactly as a literal substring. -/
def reMetaChars : List Char :=
  ['.', '^', '$', '*', '+', '?', '\x7b', '\x7d', '[', ']', '\\', '|', '(', ')']

/-- The pattern contains no regex metacharacter, so pandas str.contains
treats it as a plain (case-insensitive, here) substring test. -/
def patLiteral (pat : String) : Bool :=
  pat.toList.all (fun c => !(reMetaChars.contains c))

/-- Python str.endswith: suffix test. -/
def pyEndsWith (s suf : String) : Bool := suf.toList.isSuffixOf s.toList

/-- Element-wise semantics of Series.str.contains(pat, case=False, na=False)
on one cell: a null cell never matches (na=False); a string cell matches
case-insensitively.  Only literal patterns are modelled exactly; the
re.error raised while compiling a malformed pattern such as "(" is modelled
by the enclosing query returning an error for any pattern containing a
metacharacter (conservative on patterns never used in the theorems below;
faithful on the concrete erroring pattern "(" that is used, which raises
re.error "missing ), unterminated subpattern" in Python). -/
def optCI (pat : String) : Option String → Bool
  | none => false
  | some s => pyContainsCI pat s

/-- One row of the assembled dataset: the ten canonical columns produced by
normalizar_colunas plus the __fonte_zip tag added by load_data; every cell
is nullable text (pandas string dtype). -/
structure CRow where
  nome_completo : Option String
  inscricao : Option String
  contrato : Option String
  data : Option String
  inicio : Option String
  cbf : Option String
  apelido : Option String
  nascimento : Option String
  time : Option String
  idade : Option String
  fonte_zip : Option String
deriving Repr, DecidableEq

/-- A query-result row: the fixed projection [nome_completo, apelido, time,
idade, nascimento, contrato, inicio, data, inscricao, cbf] shared by
search_jogadores and get_detalhes_jogador. -/
structure OutRow where
  nome_completo : Option String
  apelido : Option String
  time : Option String
  idade : Option String
  nascimento : Option String
  contrato : Option String
  inicio : Option String
  data : Option String
  inscricao : Option String
  cbf : Option String
deriving Repr, DecidableEq

/-- The column projection df2[cols] of the two query functions. -/
def projOut (r : CRow) : OutRow :=
  ⟨r.nome_completo, r.apelido, r.time, r.idade, r.nascimento,
   r.contrato, r.inicio, r.data, r.inscricao, r.cbf⟩

/-- Insert into a le-sorted list, keeping the new element before later
equal keys. -/
def insertLe {α : Type} (le : α → α → Bool) (x : α) : List α → List α
  | [] => [x]
  | y :: ys => if le x y then x :: y :: ys else y :: insertLe le x ys

/-- Insertion sort; models pandas sort_values (ascending, nulls last) and
Python sorted. -/
def insertionSortB {α : Type} (le : α → α → Bool) : List α → List α
  | [] => []
  | x :: xs => insertLe le x (insertionSortB le xs)

/-- Non-strict lexicographic order on character lists (by code point). -/
def listLeChar : List Char → List Char → Bool
  | [], _ => true
  | _ :: _, [] => false
  | a :: as, b :: bs =>
      if a < b then true
      else if b < a then false
      else listLeChar as bs

/-- Strict lexicographic order on character lists (by code point). -/
def listLtChar : List Char → List Char → Bool
  | [], [] => false
  | [], _ :: _ => true
  | _ :: _, [] => false
  | a :: as, b :: bs =>
      if a < b then true
      else if b < a then false
      else listLtChar as bs

/-- The string order of Python sorted and pandas string comparison
(code-point lexicographic). -/
def strLe (a b : String) : Bool := listLeChar a.toList b.toList

/-- Strict form of the Python string order. -/
def strLt (a b : String) : Bool := listLtChar a.toList b.toList

/-- Nullable-string key order with nulls last (pandas na_position default). -/
def optLeStr : Option String → Option String → Bool
  | none, none => true
  | none, some _ => false
  | some _, none => true
  | some a, some b => strLe a b

/-- Strict nullable-string key order (nulls last), for multi-key sorting. -/
def optLtStr : Option String → Option String → Bool
  | none, _ => false
  | some _, none => true
  | some a, some b => strLt a b

/-- Sort key of sort_values on nome_completo. -/
def leNome (a b : OutRow) : Bool := optLeStr a.nome_completo b.nome_completo

/-- Sort key of sort_values on [nome_completo, data, inicio]. -/
def leNomeDataInicio (a b : OutRow) : Bool :=
  if optLtStr a.nome_completo b.nome_completo then true
  else if optLtStr b.nome_completo a.nome_completo then false
  else if optLtStr a.data b.data then true
  else if optLtStr b.data a.data then false
  else optLeStr a.inicio b.inicio

/-- Name-filter step of search_jogadores: skipped when nome_busca is falsy
(empty); otherwise the query is stripped and the two
str.contains(..., case=False, na=False) masks are OR-ed and applied.  The
regex pattern compiles once; a metacharacter pattern is the re.error
branch. -/
def nameFilter (df : List CRow) (nome_busca : String) : Except Unit (List CRow) :=
  if nome_busca = "" then .ok df
  else
    let q := pyStrip nome_busca
    if patLiteral q then
      .ok (df.filter (fun r => optCI q r.nome_completo || optCI q r.apelido))
    else .error ()

/-- Team-filter step of search_jogadores: when time_filtro is truthy and
not the sentinel "Todos", keep exact equality on the time column (a null
cell never equals, and pandas treats the resulting NA mask entry as
False). -/
def applyTeamFilter (time_filtro : String) (df : List CRow) : List CRow :=
  if time_filtro ≠ "" ∧ time_filtro ≠ "Todos" then
    df.filter (fun r => r.time == some time_filtro)
  else df

/-- search_jogadores (src/app.py): name mask, team filter, fixed column
projection, sort_values("nome_completo"), head(limite). -/
def search_jogadores (df : List CRow) (nome_busca time_filtro : String)
    (limite : Nat) : Except Unit (List OutRow) :=
  match nameFilter df nome_busca with
  | .error e => .error e
  | .ok d1 =>
      .ok ((insertionSortB leNome
              ((applyTeamFilter time_filtro d1).map projOut)).take limite)

/-- get_detalhes_jogador (src/app.py): strip the fragment, mask on
nome_completo only (case=False, na=False), fixed column projection,
sort_values(["nome_completo", "data", "inicio"]), no limit. -/
def get_detalhes_jogador (df : List CRow) (nome_parte : String) :
    Except Unit (List OutRow) :=
  let q := pyStrip nome_parte
  if patLiteral q then
    .ok (insertionSortB leNomeDataInicio
          ((df.filter (fun r => optCI q r.nome_completo)).map projOut))
  else .error ()

/-- get_times (src/app.py): time column, dropna, strip, drop empties,
unique, sorted ascending. -/
def get_times (df : List CRow) : List String :=
  insertionSortB strLe
    ((((df.filterMap (fun r => r.time)).map pyStrip).filter
        (fun s => s ≠ "")).dedup)

/-- The canonical target of one raw header under the col_map rules of
normalizar_colunas (strip then lower, then the elif chain; the first
matching rule wins); none when no rule matches, in which case rename keeps
the header unchanged and the select step drops it. -/
def canonOf (orig : String) : Option String :=
  let low := pyLower (pyStrip orig)
  if pyIn "nome" low && pyIn "completo" low then some "nome_completo"
  else if pyIn "inscri" low then some "inscricao"
  else if pyIn "contrato" low then some "contrato"
  else if pyIn "início" low || pyIn "inicio" low then some "inicio"
  else if low == "data" || pyIn "data " low then some "data"
  else if pyIn "cbf" low then some "cbf"
  else if pyIn "apelido" low then some "apelido"
  else if pyIn "nascimento" low then some "nascimento"
  else if pyIn "time" low || pyIn "clube" low || pyIn "equipe" low then some "time"
  else if pyIn "idade" low then some "idade"
  else none

/-- df.rename with columns col_map: a header outside col_map keeps its
name. -/
def renamedHeader (orig : String) : String := (canonOf orig).getD orig

/-- In-memory pandas DataFrame: ordered (possibly duplicately) named
columns of nullable text, plus the row count of its index. -/
structure PdFrame where
  cols : List (String × List (Option String))
  nrows : Nat
deriving Repr, DecidableEq

def colunas_esperadas : List String :=
  ["nome_completo", "inscricao", "contrato", "data", "inicio",
   "cbf", "apelido", "nascimento", "time", "idade"]

/-- normalizar_colunas (src/app.py): rename headers by the synonym rules,
create each expected column that is absent filled with pd.NA, then select
the expected labels in order (pandas label selection: a duplicated label
contributes every column bearing it, in frame order). -/
def normalizar_colunas (df : PdFrame) : PdFrame :=
  let renamed := df.cols.map (fun c => (renamedHeader c.1, c.2))
  let filled := colunas_esperadas.foldl
    (fun acc col =>
      if (acc.map Prod.fst).contains col then acc
      else acc ++ [(col, List.replicate df.nrows (none : Option String))])
    renamed
  ⟨colunas_esperadas.flatMap (fun col => filled.filter (fun c => c.1 == col)),
   df.nrows⟩

/-- The __fonte_zip tag load_data appends to each normalized frame. -/
def addFonte (basename : String) (d : PdFrame) : PdFrame :=
  ⟨d.cols ++ [("__fonte_zip", List.replicate d.nrows (some basename))],
   d.nrows⟩

/-- pd.concat with ignore_index for frames sharing one header list (always
the case for the frames load_data builds, which all carry the ten expected
columns plus __fonte_zip): per-label value concatenation. -/
def concatTwo (a b : PdFrame) : PdFrame :=
  ⟨a.cols.map (fun c =>
     (c.1, c.2 ++ (match b.cols.find? (fun d => d.1 == c.1) with
                   | some d => d.2
                   | none => []))),
   a.nrows + b.nrows⟩

def concatFrames : List PdFrame → PdFrame
  | [] => ⟨[], 0⟩
  | f :: fs => fs.foldl concatTwo f

/-- load_data (src/app.py): each source is its zip basename together with
the parsed inner CSV (zip reading, pd.read_csv and the cache signatures
are IO-side and outside the embedding; astype("string") is the identity
here since every cell is already nullable text).  Each source is
normalized and tagged, and the frames are concatenated; with no source at
all the frames list is empty and load_data raises FileNotFoundError. -/
def load_data (sources : List (String × PdFrame)) : Except Unit PdFrame :=
  let frames := sources.map (fun s => addFonte s.1 (normalizar_colunas s.2))
  match frames with
  | [] => .error ()
  | f :: fs => .ok (concatFrames (f :: fs))

/-- _find_csv_inside_zip on the archive member-name list: keep the names
ending case-insensitively in ".csv"; none qualifying raises
FileNotFoundError; otherwise the first of the Python-sorted qualifying
names is chosen. -/
def _find_csv_inside_zip (names : List String) : Except Unit String :=
  let csvs := names.filter (fun n => pyEndsWith (pyLower n) ".csv")
  match insertionSortB strLe csvs with
  | [] => .error ()
  | c :: _ => .ok c

/-- Cell lookup by column label (first column bearing it) and position. -/
def cell (d : PdFrame) (name : String) (i : Nat) : Option String :=
  match d.cols.find? (fun c => c.1 == name) with
  | some c => c.2.getD i none
  | none => none

/-- View an assembled canonical frame as dataset rows. -/
def toRows (d : PdFrame) : List CRow :=
  (List.range d.nrows).map (fun i =>
    ⟨cell d "nome_completo" i, cell d "inscricao" i, cell d "contrato" i,
     cell d "data" i, cell d "inicio" i, cell d "cbf" i, cell d "apelido" i,
     cell d "nascimento" i, cell d "time" i, cell d "idade" i,
     cell d "__fonte_zip" i⟩)

/-! Auxiliary lemmas about the embedded primitives. -/

theorem subList_nil (l : List Char) : subList [] l = true := by
  cases l <;> simp [subList, List.isPrefixOf]

theorem optCI_empty (v : Option String) : optCI "" v = v.isSome := by
  cases v with
  | none => rfl
  | some s =>
      show pyContainsCI "" s = true
      show subList (pyLower "").toList (pyLower s).toList = true
      have h : (pyLower "").toList = [] := rfl
      rw [h]
      exact subList_nil _

theorem mem_insertLe {α : Type} (le : α → α → Bool) (x : α) (l : List α)
    (y : α) : y ∈ insertLe le x l ↔ y = x ∨ y ∈ l := by
  induction l with
  | nil => simp [insertLe]
  | cons a as ih =>
      by_cases h : le x a = true
      · simp [insertLe, h]
      · simp only [insertLe, if_neg h, List.mem_cons, ih]
        tauto

theorem mem_insertionSortB {α : Type} (le : α → α → Bool) (l : List α)
    (y : α) : y ∈ insertionSortB le l ↔ y ∈ l := by
  induction l with
  | nil => simp [insertionSortB]
  | cons a as ih => simp [insertionSortB, mem_insertLe, ih]

theorem insertionSortB_eq_nil {α : Type} {le : α → α → Bool} {l : List α}
    (h : insertionSortB le l = []) : l = [] := by
  cases l with
  | nil => rfl
  | cons b bs =>
      exfalso
      have hb : b ∈ insertionSortB le (b :: bs) :=
        (mem_insertionSortB le (b :: bs) b).mpr (by simp)
      rw [h] at hb
      simp at hb

theorem insertionSortB_head_min {α : Type} (le : α → α → Bool)
    (htot : ∀ a b, (le a b || le b a) = true)
    (htrans : ∀ a b c, le a b = true → le b c = true → le a c = true) :
    ∀ (l : List α) (x : α) (t : List α),
      insertionSortB le l = x :: t → ∀ y ∈ l, le x y = true := by
  have hrefl : ∀ z, le z z = true := by
    intro z
    have h := htot z z
    simpa using h
  have hneg : ∀ a b, ¬le a b = true → le b a = true := by
    intro a b hab
    have hf : le a b = false := by revert hab; cases le a b <;> simp
    have h := htot a b
    rw [hf] at h
    simpa using h
  intro l
  induction l with
  | nil => intro x t h; simp [insertionSortB] at h
  | cons a as ih =>
      intro x t hsort y hy
      rw [insertionSortB] at hsort
      cases h2 : insertionSortB le as with
      | nil =>
          have has : as = [] := insertionSortB_eq_nil h2
          subst has
          rw [h2] at hsort
          simp only [insertLe] at hsort
          obtain ⟨hx, -⟩ := List.cons.inj hsort
          simp at hy
          rw [hy, ← hx]
          exact hrefl a
      | cons b bs =>
          rw [h2, insertLe] at hsort
          by_cases hc : le a b = true
          · rw [if_pos hc] at hsort
            obtain ⟨hx, -⟩ := List.cons.inj hsort
            rcases List.mem_cons.mp hy with hya | hyas
            · rw [← hx, hya]; exact hrefl a
            · rw [← hx]
              exact htrans a b y hc (ih b bs h2 y hyas)
          · rw [if_neg hc] at hsort
            obtain ⟨hx, -⟩ := List.cons.inj hsort
            rcases List.mem_cons.mp hy with hya | hyas
            · rw [← hx, hya]; exact hneg a b hc
            · rw [← hx]; exact ih b bs h2 y hyas

theorem listLeChar_iff_not_lex :
    ∀ (l1 l2 : List Char), listLeChar l1 l2 = true ↔ ¬List.Lex (· < ·) l2 l1 := by
  intro l1
  induction l1 with
  | nil =>
      intro l2
      constructor
      · intro _ h
        cases h
      · intro _
        rfl
  | cons a as ih =>
      intro l2
      cases l2 with
      | nil =>
          constructor
          · intro h
            exact Bool.noConfusion h
          · intro h
            exact absurd List.Lex.nil h
      | cons b bs =>
          by_cases hab : a < b
          · simp only [listLeChar, if_pos hab]
            constructor
            · intro _ h
              cases h with
              | cons h' => exact absurd hab (lt_irrefl _)
              | rel h' => exact absurd h' (lt_asymm hab)
            · intro _
              trivial
          · by_cases hba : b < a
            · simp only [listLeChar, if_neg hab, if_pos hba]
              constructor
              · intro h
                exact Bool.noConfusion h
              · intro h
                exact absurd (List.Lex.rel hba) h
            · have heq : a = b :=
                le_antisymm (le_of_not_lt hba) (le_of_not_lt hab)
              subst heq
              simp only [listLeChar, if_neg hab]
              rw [ih bs]
              constructor
              · intro h hlt
                cases hlt with
                | cons h' => exact h h'
                | rel h' => exact absurd h' hab
              · intro h hlex
                exact h (List.Lex.cons hlex)

/-- The embedded Boolean string order agrees with the lexicographic order
on strings. -/
theorem strLe_iff (a b : String) : strLe a b = true ↔ a ≤ b := by
  rw [strLe, listLeChar_iff_not_lex, String.le_iff_toList_le, ← not_lt]
  exact Iff.rfl

theorem strLe_total (a b : String) : (strLe a b || strLe b a) = true := by
  rcases le_total a b with h | h
  · rw [(strLe_iff a b).mpr h]
    rfl
  · rw [(strLe_iff b a).mpr h]
    simp

theorem strLe_trans (a b c : String) :
    strLe a b = true → strLe b c = true → strLe a c = true := by
  intro h1 h2
  exact (strLe_iff a c).mpr
    (le_trans ((strLe_iff a b).mp h1) ((strLe_iff b c).mp h2))

/-- The name-filter step succeeds whenever the stripped query is a literal
pattern (including the skipped empty-query case). -/
theorem nameFilter_ok (df : List CRow) (q : String)
    (h : patLiteral (pyStrip q) = true) :
    ∃ d1, nameFilter df q = .ok d1 := by
  rw [nameFilter]
  by_cases hq : q = ""
  · rw [if_pos hq]; exact ⟨df, rfl⟩
  · rw [if_neg hq, if_pos h]; exact ⟨_, rfl⟩

/-- Unfolding search_jogadores past a successful name-filter step. -/
theorem search_ok_of_nameFilter (df : List CRow) (q t : String) (l : Nat)
    (d1 : List CRow) (h : nameFilter df q = .ok d1) :
    search_jogadores df q t l =
      .ok ((insertionSortB leNome
            ((applyTeamFilter t d1).map projOut)).take l) := by
  rw [search_jogadores, h]

/-- With a truthy query, the name-filter step that succeeds is exactly the
OR of the two contains masks. -/
theorem nameFilter_ok_filter (df : List CRow) (q : String) (d1 : List CRow)
    (hq : q ≠ "") (h : nameFilter df q = .ok d1) :
    d1 = df.filter (fun r =>
      optCI (pyStrip q) r.nome_completo || optCI (pyStrip q) r.apelido) := by
  rw [nameFilter, if_neg hq] at h
  by_cases hp : patLiteral (pyStrip q) = true
  · rw [if_pos hp] at h
    injection h with h
    exact h.symm
  · rw [if_neg hp] at h
    exact Except.noConfusion h

/-- C7: load_data called with an empty source list raises the no-sources
failure (FileNotFoundError) and produces no dataset value. -/
theorem load_data_empty_sources : load_data [] = Except.error () := rfl

/-- C5: for a fixed dataset, query and team filter, the search result at
limit l1 is the first l1 rows of the result at any larger limit l2; and
with the empty name and the "Todos" sentinel the result is the whole
dataset (projected), sorted by nome_completo, truncated to the limit. -/
theorem search_limit_truncation :
    (∀ (df : List CRow) (q t : String) (l1 l2 : Nat) (r : List OutRow),
        l1 ≤ l2 → search_jogadores df q t l2 = .ok r →
        search_jogadores df q t l1 = .ok (r.take l1)) ∧
    (∀ (df : List CRow) (l : Nat),
        search_jogadores df "" "Todos" l =
          .ok ((insertionSortB leNome (df.map projOut)).take l)) := by
  constructor
  · intro df q t l1 l2 r h12 hok
    cases hnf : nameFilter df q with
    | error e =>
        rw [search_jogadores, hnf] at hok
        exact Except.noConfusion hok
    | ok d1 =>
        rw [search_ok_of_nameFilter df q t l2 d1 hnf] at hok
        injection hok with hok
        rw [search_ok_of_nameFilter df q t l1 d1 hnf, ← hok,
          List.take_take, Nat.min_eq_left h12]
  · intro df l
    rfl

/-- A one-row dataset whose player name contains the character "(". -/
def cdf1 : List CRow :=
  [⟨some "x(y", none, none, none, none, none, none, none, none, none, none⟩]

/-- C1 counterexample: the query "(" is non-empty after trimming and is a
case-insensitive substring of the row's full_name, so the claim says the
row is kept with no error; but search_jogadores passes the query to
str.contains as a regular expression and raises re.error instead of
returning any rows. -/
theorem search_regex_metachar_cex :
    pyStrip "(" ≠ "" ∧ pyContainsCI "(" "x(y" = true ∧
    search_jogadores cdf1 "(" "Todos" 10 = .error () :=
  ⟨by decide, by decide, rfl⟩

/-- Spec predicate (section 4.5 of the spec): the trimmed query is a
case-insensitive substring of full_name or of nickname; a null field never
matches. -/
def specNameMatch (q : String) (r : CRow) : Bool :=
  ((r.nome_completo.map (fun s => pyContainsCI q s)).getD false) ||
  ((r.apelido.map (fun s => pyContainsCI q s)).getD false)

/-- The name-filter step for a truthy, metacharacter-free query is exactly
the spec's substring filter. -/
theorem nameFilter_literal (df : List CRow) (q : String)
    (hq : pyStrip q ≠ "") (h : patLiteral (pyStrip q) = true) :
    nameFilter df q = .ok (df.filter (specNameMatch (pyStrip q))) := by
  have hq0 : q ≠ "" := fun he => hq (by rw [he]; rfl)
  rw [nameFilter, if_neg hq0, if_pos h]
  congr 1
  apply List.filter_congr
  intro r _
  cases hn : r.nome_completo <;> cases ha : r.apelido <;>
    simp [optCI, specNameMatch, hn, ha]

/-- C1 amended: for every dataset and every name_query that is non-empty
after trimming and contains no regex metacharacter, search keeps exactly
the rows where the trimmed query is a case-insensitive substring of
full_name or of nickname, a null field never matching and never raising. -/
theorem search_literal_query_filter :
    ∀ (df : List CRow) (q t : String) (l : Nat),
      pyStrip q ≠ "" → patLiteral (pyStrip q) = true →
      search_jogadores df q t l =
        .ok ((insertionSortB leNome
          ((applyTeamFilter t
            (df.filter (specNameMatch (pyStrip q)))).map projOut)).take l) := by
  intro df q t l hq h
  exact search_ok_of_nameFilter df q t l _ (nameFilter_literal df q hq h)

/-- The dataset for the C1 witness: one matching row, one non-matching. -/
def wdf1 : List CRow :=
  [⟨some "ANA", none, none, none, none, none, none, none, none, none, none⟩,
   ⟨some "BETO", none, none, none, none, none, none, none, none, none, none⟩]

theorem search_literal_query_filter_witness :
    pyStrip "an" ≠ "" ∧ patLiteral (pyStrip "an") = true ∧
    search_jogadores wdf1 "an" "Todos" 10 =
      .ok ((insertionSortB leNome
        ((applyTeamFilter "Todos"
          (wdf1.filter (specNameMatch (pyStrip "an")))).map projOut)).take 10) :=
  ⟨by decide, by decide,
   search_literal_query_filter wdf1 "an" "Todos" 10 (by decide) (by decide)⟩

/-- A one-row dataset used by the C2 counterexample. -/
def cdf2 : List CRow :=
  [⟨some "ANA", none, none, none, none, none, none, none, none, none, none⟩]

/-- C2 counterexample: the query operations can raise; the query "(" is a
malformed regular expression and both search_jogadores and
get_detalhes_jogador raise re.error on it instead of returning a result. -/
theorem query_raise_cex :
    search_jogadores cdf2 "(" "Todos" 5 = .error () ∧
    get_detalhes_jogador cdf2 "(" = .error () :=
  ⟨rfl, rfl⟩

/-- C2 amended: for every dataset, search and player_details return a
(possibly empty) result for every query whose trimmed form is free of
regex metacharacters, and distinct_teams always returns a result. -/
theorem query_ops_return_ok :
    ∀ (df : List CRow) (q t : String) (l : Nat) (q2 : String),
      patLiteral (pyStrip q) = true → patLiteral (pyStrip q2) = true →
      (∃ r, search_jogadores df q t l = .ok r) ∧
      (∃ r2, get_detalhes_jogador df q2 = .ok r2) ∧
      (∃ ts, get_times df = ts) := by
  intro df q t l q2 h1 h2
  refine ⟨?_, ?_, ⟨_, rfl⟩⟩
  · obtain ⟨d1, hd1⟩ := nameFilter_ok df q h1
    exact ⟨_, search_ok_of_nameFilter df q t l d1 hd1⟩
  · rw [get_detalhes_jogador, if_pos h2]
    exact ⟨_, rfl⟩

theorem query_ops_return_ok_witness :
    patLiteral (pyStrip "si") = true ∧ patLiteral (pyStrip "a") = true ∧
    ((∃ r, search_jogadores cdf2 "si" "Todos" 5 = .ok r) ∧
     (∃ r2, get_detalhes_jogador cdf2 "a" = .ok r2) ∧
     (∃ ts, get_times cdf2 = ts)) :=
  ⟨by decide, by decide,
   query_ops_return_ok cdf2 "si" "Todos" 5 "a" (by decide) (by decide)⟩

/-- A one-row dataset whose full_name is null. -/
def cdf6 : List CRow :=
  [⟨none, none, none, none, none, none, none, none, none, none, none⟩]

/-- C6 counterexample: called with a whitespace-only fragment,
get_detalhes_jogador does not match every row of the dataset: a row whose
full_name is null is excluded (na=False), so a one-row dataset with a null
full_name yields an empty result. -/
theorem detalhes_null_name_cex :
    get_detalhes_jogador cdf6 " " = .ok [] ∧ cdf6.length = 1 :=
  ⟨rfl, rfl⟩

/-- C6 amended: called with an empty (or whitespace-only) name fragment,
get_detalhes_jogador matches every row whose full_name is non-null (rows
with a null full_name never match), returning them sorted by
(full_name, record_date, start_date). -/
theorem detalhes_empty_fragment :
    ∀ (df : List CRow) (q : String), pyStrip q = "" →
      get_detalhes_jogador df q =
        .ok (insertionSortB leNomeDataInicio
              ((df.filter (fun r => r.nome_completo.isSome)).map projOut)) := by
  intro df q h
  rw [get_detalhes_jogador]
  simp only [h]
  rw [if_pos (show patLiteral "" = true from rfl)]
  rw [List.filter_congr (fun r _ => optCI_empty r.nome_completo)]

/-- The dataset for the C6 witness: one named row, one null-named row. -/
def wdf6 : List CRow :=
  [⟨some "ANA", none, none, none, none, none, none, none, none, none, none⟩,
   ⟨none, none, none, none, none, none, none, none, none, none, none⟩]

theorem detalhes_empty_fragment_witness :
    pyStrip "  " = "" ∧
    get_detalhes_jogador wdf6 "  " =
      .ok (insertionSortB leNomeDataInicio
            ((wdf6.filter (fun r => r.nome_completo.isSome)).map projOut)) :=
  ⟨by decide, detalhes_empty_fragment wdf6 "  " (by decide)⟩

/-- The dataset for the C5 witness. -/
def wdf5 : List CRow :=
  [⟨some "B", none, none, none, none, none, none, none, none, none, none⟩,
   ⟨some "A", none, none, none, none, none, none, none, none, none, none⟩]

/-- The full search result over wdf5 at limit 2. -/
def w5r : List OutRow :=
  [⟨some "A", none, none, none, none, none, none, none, none, none⟩,
   ⟨some "B", none, none, none, none, none, none, none, none, none⟩]

theorem search_limit_truncation_witness :
    (1 : Nat) ≤ 2 ∧ search_jogadores wdf5 "" "Todos" 2 = .ok w5r ∧
    search_jogadores wdf5 "" "Todos" 1 = .ok (w5r.take 1) :=
  ⟨by decide, rfl,
   search_limit_truncation.1 wdf5 "" "Todos" 1 2 w5r (by decide) rfl⟩

/-- C9 counterexample: a raw header whose lowered, stripped form contains
both "data " and "nascimento" but also "inscri": the inscricao rule is
tested before the data rule, so the header maps to inscricao, not to the
record_date field "data". -/
theorem canon_data_nascimento_cex :
    pyIn "data " (pyLower (pyStrip "inscricao data nascimento")) = true ∧
    pyIn "nascimento" (pyLower (pyStrip "inscricao data nascimento")) = true ∧
    canonOf "inscricao data nascimento" = some "inscricao" ∧
    canonOf "inscricao data nascimento" ≠ some "data" :=
  ⟨by decide, by decide, by decide, by decide⟩

/-- C9 amended: a raw header whose lowered, stripped form contains "data "
together with "nascimento" and matches none of the rules tested earlier
(both "nome" and "completo"; "inscri"; "contrato"; "início" or "inicio")
maps to the record_date field "data", not to nascimento, because the data
rule is tested before the nascimento rule and the first match wins. -/
theorem canon_data_beats_nascimento :
    ∀ (s : String),
      pyIn "data " (pyLower (pyStrip s)) = true →
      pyIn "nascimento" (pyLower (pyStrip s)) = true →
      (pyIn "nome" (pyLower (pyStrip s)) &&
        pyIn "completo" (pyLower (pyStrip s))) = false →
      pyIn "inscri" (pyLower (pyStrip s)) = false →
      pyIn "contrato" (pyLower (pyStrip s)) = false →
      (pyIn "início" (pyLower (pyStrip s)) ||
        pyIn "inicio" (pyLower (pyStrip s))) = false →
      canonOf s = some "data" := by
  intro s h1 h2 h3 h4 h5 h6
  rw [canonOf]
  simp [h1, h3, h4, h5, h6]

theorem canon_data_beats_nascimento_witness :
    pyIn "data " (pyLower (pyStrip "Data de Nascimento")) = true ∧
    pyIn "nascimento" (pyLower (pyStrip "Data de Nascimento")) = true ∧
    canonOf "Data de Nascimento" = some "data" :=
  ⟨by decide, by decide,
   canon_data_beats_nascimento "Data de Nascimento" (by decide) (by decide)
     (by decide) (by decide) (by decide) (by decide)⟩

/-- C10: for every dataset and every non-empty (even whitespace-only)
name_query, a search result row never has full_name and nickname both
null: such a row fails both contains masks (na=False) and is filtered
out. -/
theorem search_no_double_null :
    ∀ (df : List CRow) (q t : String) (l : Nat) (r : List OutRow),
      q ≠ "" → search_jogadores df q t l = .ok r →
      ∀ row ∈ r, ¬(row.nome_completo = none ∧ row.apelido = none) := by
  intro df q t l r hq hok row hrow hboth
  obtain ⟨hn, ha⟩ := hboth
  cases hnf : nameFilter df q with
  | error e =>
      rw [search_jogadores, hnf] at hok
      exact Except.noConfusion hok
  | ok d1 =>
      rw [search_ok_of_nameFilter df q t l d1 hnf] at hok
      injection hok with hok
      have h1 : row ∈ insertionSortB leNome
          ((applyTeamFilter t d1).map projOut) :=
        List.take_subset l _ (hok ▸ hrow)
      have h2 : row ∈ (applyTeamFilter t d1).map projOut :=
        (mem_insertionSortB leNome _ row).mp h1
      obtain ⟨r', hr', hproj⟩ := List.mem_map.mp h2
      have hr'd1 : r' ∈ d1 := by
        revert hr'
        rw [applyTeamFilter]
        by_cases hcond : t ≠ "" ∧ t ≠ "Todos"
        · rw [if_pos hcond]
          exact fun hm => List.filter_subset' d1 hm
        · rw [if_neg hcond]
          exact id
      have hmem : r' ∈ df.filter (fun r =>
          optCI (pyStrip q) r.nome_completo || optCI (pyStrip q) r.apelido) :=
        (nameFilter_ok_filter df q d1 hq hnf) ▸ hr'd1
      have hpred := (List.mem_filter.mp hmem).2
      have hn' : r'.nome_completo = none := by
        rw [← hproj] at hn; exact hn
      have ha' : r'.apelido = none := by
        rw [← hproj] at ha; exact ha
      rw [hn', ha'] at hpred
      simp [optCI] at hpred

/-- The dataset for the C10 witness: a row with both name fields null and
a matching named row. -/
def wdf10 : List CRow :=
  [⟨none, none, none, none, none, none, none, none, none, none, none⟩,
   ⟨some "ANA", none, none, none, none, none, none, none, none, none, none⟩]

/-- The search result over wdf10 for the query "a". -/
def w10r : List OutRow :=
  [⟨some "ANA", none, none, none, none, none, none, none, none, none⟩]

theorem search_no_double_null_witness :
    ("a" : String) ≠ "" ∧ search_jogadores wdf10 "a" "Todos" 5 = .ok w10r ∧
    ∀ row ∈ w10r, ¬(row.nome_completo = none ∧ row.apelido = none) :=
  ⟨by decide, rfl,
   search_no_double_null wdf10 "a" "Todos" 5 w10r (by decide) rfl⟩

/-- C8: extraction of the inner tabular entry fails with the not-found
error exactly when no member name ends case-insensitively in ".csv", and
a successful extraction picks a qualifying member name that is
lexicographically least among the qualifying names. -/
theorem find_csv_selection :
    ∀ (names : List String),
      (_find_csv_inside_zip names = .error () ↔
        ∀ n ∈ names, pyEndsWith (pyLower n) ".csv" = false) ∧
      (∀ c, _find_csv_inside_zip names = .ok c →
        c ∈ names ∧ pyEndsWith (pyLower c) ".csv" = true ∧
        ∀ m ∈ names, pyEndsWith (pyLower m) ".csv" = true → c ≤ m) := by
  intro names
  constructor
  · constructor
    · intro he n hn
      simp only [_find_csv_inside_zip] at he
      cases hs : insertionSortB strLe
          (names.filter (fun n => pyEndsWith (pyLower n) ".csv")) with
      | nil =>
          have hnil : names.filter (fun n => pyEndsWith (pyLower n) ".csv") = [] :=
            insertionSortB_eq_nil hs
          have hnot := List.filter_eq_nil_iff.mp hnil n hn
          revert hnot
          cases pyEndsWith (pyLower n) ".csv" <;> simp
      | cons c t =>
          rw [hs] at he
          exact Except.noConfusion he
    · intro hall
      have hnil : names.filter (fun n => pyEndsWith (pyLower n) ".csv") = [] :=
        List.filter_eq_nil_iff.mpr (fun n hn => by rw [hall n hn]; simp)
      simp only [_find_csv_inside_zip, hnil]
      rfl
  · intro c hok
    simp only [_find_csv_inside_zip] at hok
    cases hs : insertionSortB strLe
        (names.filter (fun n => pyEndsWith (pyLower n) ".csv")) with
    | nil =>
        rw [hs] at hok
        exact Except.noConfusion hok
    | cons c0 t =>
        rw [hs] at hok
        injection hok with hc
        subst hc
        have hmem : c0 ∈ names.filter (fun n => pyEndsWith (pyLower n) ".csv") :=
          (mem_insertionSortB strLe _ c0).mp (hs ▸ List.mem_cons_self c0 t)
        have hm2 := List.mem_filter.mp hmem
        refine ⟨hm2.1, hm2.2, ?_⟩
        intro m hm hcsv
        have hmf : m ∈ names.filter (fun n => pyEndsWith (pyLower n) ".csv") :=
          List.mem_filter.mpr ⟨hm, hcsv⟩
        have hmin := insertionSortB_head_min strLe strLe_total strLe_trans
          _ c0 t hs m hmf
        exact (strLe_iff c0 m).mp hmin

/-- The member-name list for the C8 witness. -/
def names8 : List String := ["x.txt", "B.CSV", "a.csv"]

theorem find_csv_selection_witness :
    _find_csv_inside_zip names8 = .ok "B.CSV" ∧
    ("B.CSV" ∈ names8 ∧ pyEndsWith (pyLower "B.CSV") ".csv" = true ∧
      ∀ m ∈ names8, pyEndsWith (pyLower m) ".csv" = true → "B.CSV" ≤ m) :=
  ⟨rfl, (find_csv_selection names8).2 "B.CSV" rfl⟩

/-- Source A of the C4 scenario: raw headers that normalize to full_name,
nickname (apelido) and team (time). -/
def rawA : PdFrame :=
  ⟨[("Nome Completo", [some "ANA SILVA"]), ("Apelido", [some "ANINHA"]),
    ("Time", [some "Lions"])], 1⟩

/-- Source B of the C4 scenario: no nickname column, so apelido is
null-filled. -/
def rawB : PdFrame :=
  ⟨[("Nome Completo", [some "CARLOS SILVA"]), ("Time", [some "Tigers"])], 1⟩

/-- The dataset load_data assembles from the two C4 sources. -/
def dfAB : PdFrame :=
  ⟨[("nome_completo", [some "ANA SILVA", some "CARLOS SILVA"]),
    ("inscricao", [none, none]),
    ("contrato", [none, none]),
    ("data", [none, none]),
    ("inicio", [none, none]),
    ("cbf", [none, none]),
    ("apelido", [some "ANINHA", none]),
    ("nascimento", [none, none]),
    ("time", [some "Lions", some "Tigers"]),
    ("idade", [none, none]),
    ("__fonte_zip", [some "bidA.csv.zip", some "bidB.csv.zip"])], 2⟩

def anaOut : OutRow :=
  ⟨some "ANA SILVA", some "ANINHA", some "Lions", none, none, none, none,
   none, none, none⟩

def carlosOut : OutRow :=
  ⟨some "CARLOS SILVA", none, some "Tigers", none, none, none, none, none,
   none, none⟩

/-- C4: assembling the two sources and searching "silva" over all teams
returns exactly the two rows with ANA SILVA before CARLOS SILVA, and
restricting to team "Tigers" returns only the CARLOS SILVA row. -/
theorem search_two_sources_scenario :
    load_data [("bidA.csv.zip", rawA), ("bidB.csv.zip", rawB)] = .ok dfAB ∧
    search_jogadores (toRows dfAB) "silva" "Todos" 10 =
      .ok [anaOut, carlosOut] ∧
    search_jogadores (toRows dfAB) "silva" "Tigers" 10 = .ok [carlosOut] :=
  ⟨rfl, rfl, rfl⟩

/-- The header each raw column is renamed to (spec-side view of col_map
together with rename). -/
def renamedNames (df : PdFrame) : List String :=
  df.cols.map (fun c => renamedHeader c.1)

theorem renamed_map_fst (df : PdFrame) :
    (df.cols.map (fun c => (renamedHeader c.1, c.2))).map Prod.fst =
      renamedNames df := by
  rw [renamedNames, List.map_map]
  rfl

/-- The missing-column fill loop appends, in order, one pd.NA column for
each expected label absent from the frame. -/
theorem fill_foldl (n : Nat) :
    ∀ (cols : List String) (acc : List (String × List (Option String))),
      cols.Nodup →
      cols.foldl (fun acc col =>
          if (acc.map Prod.fst).contains col then acc
          else acc ++ [(col, List.replicate n (none : Option String))]) acc =
        acc ++ (cols.filter
            (fun c => !((acc.map Prod.fst).contains c))).map
          (fun c => (c, List.replicate n (none : Option String))) := by
  intro cols
  induction cols with
  | nil =>
      intro acc _
      simp
  | cons c cs ih =>
      intro acc hnd
      have hc : c ∉ cs := (List.nodup_cons.mp hnd).1
      have hcs : cs.Nodup := (List.nodup_cons.mp hnd).2
      rw [List.foldl_cons]
      cases hmem : (acc.map Prod.fst).contains c with
      | true =>
          rw [if_pos rfl, ih acc hcs, List.filter_cons]
          rw [show (!((acc.map Prod.fst).contains c)) = false by rw [hmem]; rfl]
          simp
      | false =>
          rw [if_neg (by simp)]
          rw [ih (acc ++ [(c, List.replicate n (none : Option String))]) hcs]
          have hcongr : ∀ x ∈ cs,
              (!(((acc ++ [(c, List.replicate n (none : Option String))]).map
                  Prod.fst).contains x)) =
                (!((acc.map Prod.fst).contains x)) := by
            intro x hx
            have hxc : x ≠ c := fun he => hc (he ▸ hx)
            simp [List.map_append, hxc]
          rw [List.filter_congr hcongr, List.filter_cons]
          rw [show (!((acc.map Prod.fst).contains c)) = true by rw [hmem]; rfl]
          rw [if_pos rfl, List.map_cons, List.append_assoc]
          rfl

set_option maxHeartbeats 1000000 in
theorem colunas_esperadas_nodup : colunas_esperadas.Nodup := by decide

/-- Selection by a label collects as many columns as bear that label. -/
theorem length_filter_fst (col : String) :
    ∀ (l : List (String × List (Option String))),
      (l.filter (fun c => c.1 == col)).length = (l.map Prod.fst).count col := by
  intro l
  induction l with
  | nil => rfl
  | cons x xs ih =>
      rw [List.filter_cons, List.map_cons, List.count_cons]
      cases h : (x.1 == col) with
      | true => simp [ih]
      | false => simp [ih]

theorem filter_fst_singleton {col : String}
    {l : List (String × List (Option String))}
    (h : (l.filter (fun c => c.1 == col)).length = 1) :
    ∃ v, l.filter (fun c => c.1 == col) = [(col, v)] := by
  cases hf : l.filter (fun c => c.1 == col) with
  | nil =>
      rw [hf] at h
      simp at h
  | cons x xs =>
      rw [hf] at h
      rw [List.length_cons] at h
      have hxs : xs = [] := List.eq_nil_of_length_eq_zero (by omega)
      subst hxs
      have hx : x ∈ l.filter (fun c => c.1 == col) := by
        rw [hf]
        exact List.mem_cons_self x []
      have hp := (List.mem_filter.mp hx).2
      have hx1 : x.1 = col := by simpa using hp
      refine ⟨x.2, ?_⟩
      rw [← hx1, Prod.mk.eta]

/-- Under the no-collision hypothesis, the label selection of the filled
frame returns exactly one column per expected label. -/
theorem filled_filter_singleton (df : PdFrame) (col : String)
    (hesp : col ∈ colunas_esperadas)
    (hcnt : (renamedNames df).count col ≤ 1) :
    ∃ v, ((df.cols.map (fun c => (renamedHeader c.1, c.2)) ++
        (colunas_esperadas.filter (fun c =>
            !(((df.cols.map (fun c => (renamedHeader c.1, c.2))).map
                Prod.fst).contains c))).map
          (fun c => (c, List.replicate df.nrows (none : Option String)))).filter
        (fun c => c.1 == col)) = [(col, v)] := by
  apply filter_fst_singleton
  rw [List.filter_append, List.length_append, length_filter_fst col,
    length_filter_fst col, renamed_map_fst]
  have hsnd : (((colunas_esperadas.filter
        (fun c => !((renamedNames df).contains c))).map
      (fun c => (c, List.replicate df.nrows (none : Option String)))).map
        Prod.fst) =
      colunas_esperadas.filter (fun c => !((renamedNames df).contains c)) := by
    simp [List.map_map, Function.comp_def]
  rw [hsnd]
  by_cases hmem : col ∈ renamedNames df
  · have h1 : 1 ≤ (renamedNames df).count col :=
      List.count_pos_iff.mpr hmem
    have h2 : (renamedNames df).count col = 1 := le_antisymm hcnt h1
    have h3 : (colunas_esperadas.filter
        (fun c => !((renamedNames df).contains c))).count col = 0 := by
      apply List.count_eq_zero.mpr
      intro hin
      have hpr := (List.mem_filter.mp hin).2
      simp [hmem] at hpr
    rw [h2, h3]
  · have h1 : (renamedNames df).count col = 0 :=
      List.count_eq_zero.mpr hmem
    have h2 : (colunas_esperadas.filter
        (fun c => !((renamedNames df).contains c))).count col = 1 := by
      apply List.count_eq_one_of_mem
      · exact List.Nodup.filter _ colunas_esperadas_nodup
      · exact List.mem_filter.mpr ⟨hesp, by simp [hmem]⟩
    rw [h1, h2]

theorem flatMap_singleton_names :
    ∀ (es : List String) (g : String → List (String × List (Option String))),
      (∀ col ∈ es, ∃ v, g col = [(col, v)]) →
      (es.flatMap g).map Prod.fst = es := by
  intro es
  induction es with
  | nil =>
      intro g _
      rfl
  | cons c cs ih =>
      intro g hg
      rw [List.flatMap_cons, List.map_append]
      obtain ⟨v, hv⟩ := hg c (List.mem_cons_self c cs)
      rw [hv, ih g (fun col hcol => hg col (List.mem_cons_of_mem c hcol))]
      rfl

/-- The selected columns of a normalized frame, with the fill loop
rewritten into its closed form. -/
theorem normalizar_cols_spec (df : PdFrame) :
    (normalizar_colunas df).cols =
      colunas_esperadas.flatMap (fun col =>
        (df.cols.map (fun c => (renamedHeader c.1, c.2)) ++
          (colunas_esperadas.filter (fun c =>
              !(((df.cols.map (fun c => (renamedHeader c.1, c.2))).map
                  Prod.fst).contains c))).map
            (fun c => (c, List.replicate df.nrows (none : Option String)))).filter
          (fun c => c.1 == col)) := by
  have h := fill_foldl df.nrows colunas_esperadas
    (df.cols.map (fun c => (renamedHeader c.1, c.2))) colunas_esperadas_nodup
  simp only [normalizar_colunas, h]

/-- The frame of the C3 counterexample: two raw headers, Time and Clube,
both mapping to the canonical time field. -/
def cdf3 : PdFrame := ⟨[("Time", [some "A"]), ("Clube", [some "B"])], 1⟩

set_option maxHeartbeats 1000000 in
/-- C3 counterexample: when two raw headers map to the same canonical
field, pandas rename leaves a duplicated label and the final label
selection keeps both columns, so the normalized output has eleven columns,
not the ten canonical fields. -/
theorem normalizar_duplicate_canon_cex :
    renamedHeader "Time" = "time" ∧ renamedHeader "Clube" = "time" ∧
    (normalizar_colunas cdf3).cols.length = 11 ∧
    (normalizar_colunas cdf3).cols.map Prod.fst ≠ colunas_esperadas :=
  ⟨rfl, rfl, by decide, by decide⟩

set_option maxHeartbeats 1000000 in
/-- C3 amended: provided no two raw headers are renamed to the same
canonical field, normalization always succeeds with exactly the ten
canonical fields in the fixed canonical order, the row count unchanged,
unmapped raw headers dropped, and each canonical field matched by no raw
header present as a column that is null in every row. -/
theorem normalizar_canonical_shape :
    ∀ (df : PdFrame),
      (∀ col ∈ colunas_esperadas, (renamedNames df).count col ≤ 1) →
      (normalizar_colunas df).cols.map Prod.fst = colunas_esperadas ∧
      (normalizar_colunas df).nrows = df.nrows ∧
      ∀ col ∈ colunas_esperadas, col ∉ renamedNames df →
        (col, List.replicate df.nrows (none : Option String)) ∈
          (normalizar_colunas df).cols := by
  intro df hcnt
  refine ⟨?_, by simp only [normalizar_colunas], ?_⟩
  · rw [normalizar_cols_spec]
    exact flatMap_singleton_names colunas_esperadas _
      (fun col hcol => filled_filter_singleton df col hcol (hcnt col hcol))
  · intro col hcol hnot
    rw [normalizar_cols_spec]
    apply List.mem_flatMap.mpr
    refine ⟨col, hcol, ?_⟩
    apply List.mem_filter.mpr
    refine ⟨?_, by simp⟩
    apply List.mem_append_right
    apply List.mem_map.mpr
    refine ⟨col, ?_, rfl⟩
    apply List.mem_filter.mpr
    refine ⟨hcol, ?_⟩
    rw [renamed_map_fst]
    simp [hnot]

/-- The frame for the C3 witness: the spec's own concrete scenario, with
headers normalizing to full_name, team and start_date. -/
def wdf3 : PdFrame :=
  ⟨[("Nome Completo", [some "X"]), ("Clube", [some "Y"]),
    ("Inicio", [some "Z"])], 1⟩

theorem normalizar_canonical_shape_witness :
    (∀ col ∈ colunas_esperadas, (renamedNames wdf3).count col ≤ 1) ∧
    ((normalizar_colunas wdf3).cols.map Prod.fst = colunas_esperadas ∧
     (normalizar_colunas wdf3).nrows = wdf3.nrows ∧
     ∀ col ∈ colunas_esperadas, col ∉ renamedNames wdf3 →
       (col, List.replicate wdf3.nrows (none : Option String)) ∈
         (normalizar_colunas wdf3).cols) :=
  ⟨by decide, normalizar_canonical_shape wdf3 (by decide)⟩

end BidApp
